import Mathlib

/-!
Verification development for the sonnet5-checker backend.

The TypeScript sources are embedded shallowly:
- the case-insensitive, word-boundary-anchored regular expressions used by
  the classifier are embedded as token sequences (literal characters with
  optional separator classes) together with an explicit matcher that scans
  every start position of the text, exactly as RegExp.test does for these
  patterns;
- each source adapter becomes a total function over an explicit transport
  oracle describing every fetch outcome (network error, HTTP status, entity
  tag, possibly-malformed payload), with the try/catch structure of the
  source mirrored by explicit branches;
- the scheduler and the notifier become explicit state machines.
-/

set_option maxRecDepth 8000

/-- Word character test matching the JS regex word class (letters, digits,
underscore); Lean's Char.isAlpha and Char.isDigit are ASCII-only, like the
non-unicode JS regexes in the source. -/
def isWordChar (c : Char) : Bool := c.isAlpha || c.isDigit || c == '_'

/-- ASCII lower/upper pairs; used to embed the /i (case-insensitive) flag of
the source patterns. -/
def UPPER_TABLE : List (Char × Char) :=
  [('a', 'A'), ('b', 'B'), ('c', 'C'), ('d', 'D'), ('e', 'E'), ('f', 'F'),
   ('g', 'G'), ('h', 'H'), ('i', 'I'), ('j', 'J'), ('k', 'K'), ('l', 'L'),
   ('m', 'M'), ('n', 'N'), ('o', 'O'), ('p', 'P'), ('q', 'Q'), ('r', 'R'),
   ('s', 'S'), ('t', 'T'), ('u', 'U'), ('v', 'V'), ('w', 'W'), ('x', 'X'),
   ('y', 'Y'), ('z', 'Z')]

/-- Uppercase counterpart of an ASCII lowercase letter; identity elsewhere. -/
def upperOf (c : Char) : Char :=
  match UPPER_TABLE.find? (fun q => q.fst == c) with
  | some q => q.snd
  | none => c

/-- Case-insensitive match of one text character against a (lowercase)
pattern character, embedding the /i flag of the source regexes. -/
def litMatch (c d : Char) : Bool := d == c || d == upperOf c

/-- Membership of a character in a regex character class such as [-_] . -/
def chClass (cs : List Char) (d : Char) : Bool :=
  match cs with
  | [] => false
  | c :: rest => d == c || chClass rest d

/-- One item of an embedded pattern: a literal character (case-insensitive)
or an optional character class such as [-_]? . -/
inductive RItem where
  | lit (c : Char)
  | opt (cs : List Char)
deriving DecidableEq

/-- Match the item sequence against a prefix of the text and require a word
boundary right after the match (every source pattern ends in a word
character, so the trailing boundary holds iff the next character is absent
or not a word character). -/
def matchRest : List RItem → List Char → Bool
  | [], [] => true
  | [], d :: _ => !isWordChar d
  | RItem.lit _ :: _, [] => false
  | RItem.lit c :: ps, d :: rest => litMatch c d && matchRest ps rest
  | RItem.opt cs :: ps, s =>
      matchRest ps s ||
        (match s with
         | [] => false
         | d :: rest => chClass cs d && matchRest ps rest)

/-- Leading word boundary: every source pattern starts with a word
character, so the boundary holds iff the previous character is absent or
not a word character. -/
def boundaryBefore (prev : Option Char) : Bool :=
  match prev with
  | none => true
  | some c => !isWordChar c

/-- Scan every start position, as RegExp.test does. -/
def testFrom (p : List RItem) : Option Char → List Char → Bool
  | prev, [] => boundaryBefore prev && matchRest p []
  | prev, c :: rest =>
      (boundaryBefore prev && matchRest p (c :: rest)) || testFrom p (some c) rest

/-- Embedded pattern.test(text). -/
def rtest (p : List RItem) (s : List Char) : Bool := testFrom p none s

/-- Literal characters of a pattern. -/
def lits (s : String) : List RItem := s.toList.map RItem.lit

/-- The [-_]? optional separator of the source patterns. -/
def sep : RItem := RItem.opt ['-', '_']

/-- The [-_.]? optional separator of the source exclusion patterns. -/
def sepd : RItem := RItem.opt ['-', '_', '.']

/-- Pattern claude[-_]?5[-_]?sonnet with word boundaries, /i. -/
def patClaude5Sonnet : List RItem := lits "claude" ++ [sep] ++ lits "5" ++ [sep] ++ lits "sonnet"

/-- Pattern sonnet[-_]?5 with word boundaries, /i. -/
def patSonnet5 : List RItem := lits "sonnet" ++ [sep] ++ lits "5"

/-- Pattern claude[-_]?sonnet[-_]?5 with word boundaries, /i. -/
def patClaudeSonnet5 : List RItem := lits "claude" ++ [sep] ++ lits "sonnet" ++ [sep] ++ lits "5"

/-- Pattern claude[-_]?5 with word boundaries, /i; present only in the
sources.ts copy of the classifier. -/
def patClaude5 : List RItem := lits "claude" ++ [sep] ++ lits "5"

/-- Pattern claude[-_]?3[-_.]?5[-_]?sonnet with word boundaries, /i. -/
def excClaude35Sonnet : List RItem :=
  lits "claude" ++ [sep] ++ lits "3" ++ [sepd] ++ lits "5" ++ [sep] ++ lits "sonnet"

/-- Pattern claude[-_]?4[-_.]?5[-_]?sonnet with word boundaries, /i. -/
def excClaude45Sonnet : List RItem :=
  lits "claude" ++ [sep] ++ lits "4" ++ [sepd] ++ lits "5" ++ [sep] ++ lits "sonnet"

/-- Pattern sonnet[-_]?3[-_.]?5 with word boundaries, /i. -/
def excSonnet35 : List RItem := lits "sonnet" ++ [sep] ++ lits "3" ++ [sepd] ++ lits "5"

/-- Pattern sonnet[-_]?4[-_.]?5 with word boundaries, /i. -/
def excSonnet45 : List RItem := lits "sonnet" ++ [sep] ++ lits "4" ++ [sepd] ++ lits "5"

/-- Pattern 3\.5[-_]?sonnet with word boundaries, /i. -/
def exc35Sonnet : List RItem := lits "3.5" ++ [sep] ++ lits "sonnet"

/-- Pattern 4\.5[-_]?sonnet with word boundaries, /i. -/
def exc45Sonnet : List RItem := lits "4.5" ++ [sep] ++ lits "sonnet"

/-- Pattern claude[-_]?3[-_.]?5 with word boundaries, /i; present only in
the sources.ts copy of the classifier. -/
def excClaude35 : List RItem := lits "claude" ++ [sep] ++ lits "3" ++ [sepd] ++ lits "5"

/-- SONNET_5_PATTERNS of src/backend/src/sources.ts (four inclusions). -/
def SONNET_5_PATTERNS : List (List RItem) :=
  [patClaude5Sonnet, patSonnet5, patClaudeSonnet5, patClaude5]

/-- EXCLUDE_PATTERNS of src/backend/src/sources.ts (seven exclusions). -/
def EXCLUDE_PATTERNS : List (List RItem) :=
  [excClaude35Sonnet, excClaude45Sonnet, excSonnet35, excSonnet45,
   exc35Sonnet, exc45Sonnet, excClaude35]

/-- SONNET_5_PATTERNS of the classifier copy embedded in
src/backend/src/index.ts (three inclusions). -/
def SONNET_5_PATTERNS_IDX : List (List RItem) :=
  [patClaude5Sonnet, patSonnet5, patClaudeSonnet5]

/-- EXCLUDE_PATTERNS of the classifier copy embedded in
src/backend/src/index.ts (six exclusions). -/
def EXCLUDE_PATTERNS_IDX : List (List RItem) :=
  [excClaude35Sonnet, excClaude45Sonnet, excSonnet35, excSonnet45,
   exc35Sonnet, exc45Sonnet]

/-- isSonnet5 of src/backend/src/sources.ts: every exclusion is tested
first and forces false; otherwise any inclusion yields true. -/
def isSonnet5 (text : List Char) : Bool :=
  if EXCLUDE_PATTERNS.any (fun p => rtest p text) then false
  else SONNET_5_PATTERNS.any (fun p => rtest p text)

/-- isSonnet5 of the copy embedded in src/backend/src/index.ts. -/
def isSonnet5Idx (text : List Char) : Bool :=
  if EXCLUDE_PATTERNS_IDX.any (fun p => rtest p text) then false
  else SONNET_5_PATTERNS_IDX.any (fun p => rtest p text)

/-- CheckResult of src/backend/src/sources.ts. -/
structure CheckResult where
  found : Bool
  model : Option String
  source : Option String
deriving DecidableEq

/-- The canonical not-found result used throughout sources.ts. -/
def notFoundResult : CheckResult := ⟨false, none, none⟩

/-- JS truthiness fallback x || y for string-or-absent values: undefined,
null and the empty string all select the fallback. -/
def orFalsy (o : Option String) (d : String) : String :=
  match o with
  | some s => if s.length = 0 then d else s
  | none => d

/-- JS template interpolation of a possibly-undefined string: an absent
value prints as the literal text undefined. -/
def tmpl (o : Option String) : String := o.getD "undefined"

/-- HTTP status test embedding response.ok (status 200-299). -/
def statusOk (s : Nat) : Bool := 200 ≤ s && s < 300

/-- Outcome of one fetch: the network layer throws, or an HTTP reply
arrives with a status and a payload; a payload of none means the body
could not be parsed (response.json or response.text throws). -/
inductive Fetch (α : Type) where
  | netError : Fetch α
  | reply (status : Nat) (body : Option α) : Fetch α

/-- One entry of the models catalog payload; both fields are optional,
mirroring the malformed-payload tolerance of the source. -/
structure ModelEntry where
  id : Option String
  display_name : Option String
deriving DecidableEq

/-- Outcome of the conditional models fetch: as Fetch, plus the optional
etag response header read by the adapter. -/
inductive ApiFetch where
  | netError : ApiFetch
  | reply (status : Nat) (etag : Option String) (body : Option (List ModelEntry)) : ApiFetch

/-- Mutable module state of the Structured-API adapter in sources.ts:
lastEtag and lastApiResult. -/
structure ApiState where
  lastEtag : Option String
  lastApiResult : CheckResult
deriving DecidableEq

/-- The etag update of sources.ts: if (etag) lastEtag = etag, where the
empty string is falsy. -/
def updEtag (old : Option String) (e : Option String) : Option String :=
  match e with
  | some t => if t.length = 0 then old else some t
  | none => old

/-- The models endpoint URL reported as source by the adapter. -/
def API_URL : String := "https://api.anthropic.com/v1/models"

/-- The per-entry loop of checkAnthropicAPI: first entry whose id or
display name classifies as the target wins. -/
def findModel : List ModelEntry → Option CheckResult
  | [] => none
  | m :: rest =>
      let modelId := orFalsy m.id ""
      let displayName := orFalsy m.display_name ""
      if isSonnet5 modelId.toList || isSonnet5 displayName.toList then
        some ⟨true, some modelId, some API_URL⟩
      else findModel rest

/-- checkAnthropicAPI of src/backend/src/sources.ts. The try/catch of the
source is mirrored by the explicit failure branches, all of which return
the not-found result; note that the etag cache is updated before the
not-ok check throws, exactly as in the source, and that a 304 reply
returns the cached lastApiResult before the etag header is read. -/
def checkAnthropicAPI : Option String → ApiState → ApiFetch → CheckResult × ApiState
  | none, st, _ => (notFoundResult, st)
  | some _, st, ApiFetch.netError => (notFoundResult, st)
  | some _, st, ApiFetch.reply status etag body =>
    if status = 304 then (st.lastApiResult, st)
    else
      let st1 : ApiState := { lastEtag := updEtag st.lastEtag etag, lastApiResult := st.lastApiResult }
      if statusOk status then
        match body with
        | none => (notFoundResult, st1)
        | some models =>
          match findModel models with
          | some r => (r, { st1 with lastApiResult := r })
          | none => (notFoundResult, { st1 with lastApiResult := notFoundResult })
      else (notFoundResult, st1)

/-- The three pages scraped by checkAnthropicWebsite in sources.ts. -/
def WEBSITE_URLS : List String :=
  ["https://www.anthropic.com/news",
   "https://www.anthropic.com/claude",
   "https://docs.anthropic.com/en/release-notes/overview"]

/-- Split on the angle-bracket class, embedding html.split over [ < > ]. -/
def splitAux : List Char → List Char → List (List Char)
  | [], acc => [acc.reverse]
  | c :: rest, acc =>
      if c = '<' || c = '>' then acc.reverse :: splitAux rest []
      else splitAux rest (c :: acc)

/-- html.split on angle brackets. -/
def splitOnAngles (l : List Char) : List (List Char) := splitAux l []

/-- After an ampersand and one non-semicolon character, skip to just past
the first semicolon. -/
def skipToSemi : List Char → Option (List Char)
  | [] => none
  | c :: rest => if c = ';' then some rest else skipToSemi rest

/-- Attempt to read the remainder of an entity (one or more non-semicolon
characters followed by a semicolon) after an ampersand. -/
def takeEntity : List Char → Option (List Char)
  | [] => none
  | c :: rest => if c = ';' then none else skipToSemi rest

/-- Fuel-indexed left-to-right scan embedding the global replace of
entities by one space; the fuel is always at least the list length, so the
zero-fuel branch is never taken when called through replaceEntities. -/
def replEnt : Nat → List Char → List Char
  | 0, l => l
  | _ + 1, [] => []
  | f + 1, c :: rest =>
      if c = '&' then
        match takeEntity rest with
        | some rest2 => ' ' :: replEnt f rest2
        | none => c :: replEnt f rest
      else c :: replEnt f rest

/-- line.replace of every entity with a space, embedding the global regex
replace of the source. -/
def replaceEntities (l : List Char) : List Char := replEnt l.length l

/-- String.prototype.trim over the whitespace recognised by Lean's
Char.isWhitespace. -/
def trimChars (l : List Char) : List Char :=
  ((l.dropWhile Char.isWhitespace).reverse.dropWhile Char.isWhitespace).reverse

/-- Per-fragment classification of the Web-Page adapter: clean the
fragment, then report it only when it passes the strict 200-character
filter and classifies as the target. -/
def classifyFragment (url : String) (line : List Char) : Option CheckResult :=
  let cleaned := trimChars (replaceEntities line)
  if cleaned.length < 200 && isSonnet5 cleaned then some ⟨true, none, some url⟩
  else none

/-- First matching fragment of a page, in order. -/
def scanLines (url : String) : List (List Char) → Option CheckResult
  | [] => none
  | line :: rest =>
      match classifyFragment url line with
      | some r => some r
      | none => scanLines url rest

/-- Per-URL loop of checkAnthropicWebsite: a network error, a not-ok
status or an unreadable body moves on to the next page. -/
def websiteGo (fetchPage : String → Fetch (List Char)) : List String → CheckResult
  | [] => notFoundResult
  | url :: rest =>
      match fetchPage url with
      | Fetch.netError => websiteGo fetchPage rest
      | Fetch.reply status body =>
        if statusOk status then
          match body with
          | none => websiteGo fetchPage rest
          | some html =>
            match scanLines url (splitOnAngles html) with
            | some r => r
            | none => websiteGo fetchPage rest
        else websiteGo fetchPage rest

/-- checkAnthropicWebsite of src/backend/src/sources.ts, over a transport
oracle giving the outcome of each page fetch. -/
def checkAnthropicWebsite (fetchPage : String → Fetch (List Char)) : CheckResult :=
  websiteGo fetchPage WEBSITE_URLS

/-- One hit of the Hacker News search payload. -/
structure HNHit where
  title : Option String
  objectID : Option String
deriving DecidableEq

/-- Permalink constructed from a hit identifier. -/
def hnSource (oid : Option String) : String :=
  "https://news.ycombinator.com/item?id=" ++ tmpl oid

/-- Per-hit loop of checkHackerNews: only titles are classified. -/
def findHNHit : List HNHit → Option CheckResult
  | [] => none
  | h :: rest =>
      if isSonnet5 (orFalsy h.title "").toList then
        some ⟨true, none, some (hnSource h.objectID)⟩
      else findHNHit rest

/-- checkHackerNews of src/backend/src/sources.ts: any transport or
parsing failure is caught and yields the not-found result. -/
def checkHackerNews : Fetch (List HNHit) → CheckResult
  | Fetch.netError => notFoundResult
  | Fetch.reply status hits =>
    if statusOk status then
      match hits with
      | none => notFoundResult
      | some hs => (findHNHit hs).getD notFoundResult
    else notFoundResult

/-- One release of the GitHub releases payload. -/
structure Release where
  tag_name : Option String
  name : Option String
  body : Option String
  html_url : Option String
deriving DecidableEq

/-- One commit of the GitHub commits payload; message stands for the
nested commit.message field. -/
structure Commit where
  message : Option String
  html_url : Option String
deriving DecidableEq

/-- The two repositories polled by checkGitHubSDK. -/
def GH_REPOS : List String :=
  ["anthropics/anthropic-sdk-python", "anthropics/anthropic-sdk-typescript"]

/-- The template-literal concatenation of tag, name and body classified
per release; absent fields print as the literal text undefined. -/
def releaseText (r : Release) : String :=
  tmpl r.tag_name ++ " " ++ tmpl r.name ++ " " ++ tmpl r.body

/-- Per-release loop of checkGitHubSDK. -/
def findRelease (repo : String) : List Release → Option CheckResult
  | [] => none
  | r :: rest =>
      if isSonnet5 (releaseText r).toList then
        some ⟨true, none,
          some (orFalsy r.html_url ("https://github.com/" ++ repo ++ "/releases"))⟩
      else findRelease repo rest

/-- Per-commit loop of checkGitHubSDK. -/
def findCommit (repo : String) : List Commit → Option CheckResult
  | [] => none
  | c :: rest =>
      if isSonnet5 (orFalsy c.message "").toList then
        some ⟨true, none, some (orFalsy c.html_url ("https://github.com/" ++ repo))⟩
      else findCommit repo rest

/-- The body of the per-repository try block of checkGitHubSDK: releases
first, then commits; every failure path falls through to the next
repository (none). -/
def ghRepoCheck (oracle : String → Fetch (List Release) × Fetch (List Commit))
    (repo : String) : Option CheckResult :=
  match (oracle repo).1 with
  | Fetch.netError => none
  | Fetch.reply s rels =>
    if statusOk s then
      match rels with
      | none => none
      | some rs =>
        match findRelease repo rs with
        | some r => some r
        | none =>
          match (oracle repo).2 with
          | Fetch.netError => none
          | Fetch.reply s2 cs =>
            if statusOk s2 then
              match cs with
              | none => none
              | some cl => findCommit repo cl
            else none
    else none

/-- Per-repository loop of checkGitHubSDK. -/
def ghGo (oracle : String → Fetch (List Release) × Fetch (List Commit)) :
    List String → CheckResult
  | [] => notFoundResult
  | repo :: rest =>
      match ghRepoCheck oracle repo with
      | some r => r
      | none => ghGo oracle rest

/-- checkGitHubSDK of src/backend/src/sources.ts, over a transport oracle
giving each repository's releases and commits fetch outcomes. -/
def checkGitHubSDK (oracle : String → Fetch (List Release) × Fetch (List Commit)) :
    CheckResult :=
  ghGo oracle GH_REPOS

/-- The reduction loop of checkAllSources: first result with found wins;
otherwise the canonical not-found result. -/
def reduceResults : List CheckResult → CheckResult
  | [] => notFoundResult
  | r :: rest => if r.found then r else reduceResults rest

/-- checkAllSources of src/backend/src/sources.ts: the four adapters run
(their oracles are supplied explicitly here) and their results are reduced
in the declared order Structured-API, Web-Page, Discussion-Search,
Release-Feed. -/
def checkAllSources (key : Option String) (st : ApiState) (apiOut : ApiFetch)
    (fetchPage : String → Fetch (List Char)) (hnOut : Fetch (List HNHit))
    (gh : String → Fetch (List Release) × Fetch (List Commit)) : CheckResult :=
  reduceResults
    [(checkAnthropicAPI key st apiOut).1,
     checkAnthropicWebsite fetchPage,
     checkHackerNews hnOut,
     checkGitHubSDK gh]

/-- Scheduler state of src/backend/src/index.ts, with ghost counters: the
isChecking re-entrancy flag, the number of aggregate checks currently in
flight, and the total number of checks ever started. -/
structure SchedulerState where
  isChecking : Bool
  inFlight : Nat
  started : Nat
deriving DecidableEq

/-- Scheduler state at process start. -/
def initialScheduler : SchedulerState := ⟨false, 0, 0⟩

/-- A trigger of performCheck (timer tick, /check or /trigger): a silent
no-op while a check is in flight, otherwise it sets the guard and starts
one aggregate check. -/
def triggerCheck (s : SchedulerState) : SchedulerState :=
  if s.isChecking then s
  else ⟨true, s.inFlight + 1, s.started + 1⟩

/-- Completion of the in-flight check: the finally block clears the guard
whether the body succeeded (ok = true) or threw (ok = false). -/
def completeCheck (_ok : Bool) (s : SchedulerState) : SchedulerState :=
  ⟨false, s.inFlight - 1, s.started⟩

/-- One scheduler event: a trigger may arrive at any time; a completion
occurs only for a check that is actually in flight. -/
inductive SchedStep : SchedulerState → SchedulerState → Prop
  | trigger (s : SchedulerState) : SchedStep s (triggerCheck s)
  | complete (s : SchedulerState) (ok : Bool) (h : 0 < s.inFlight) :
      SchedStep s (completeCheck ok s)

/-- States the scheduler can reach from process start. -/
inductive SchedReachable : SchedulerState → Prop
  | init : SchedReachable initialScheduler
  | step {s t : SchedulerState} (hs : SchedReachable s) (hst : SchedStep s t) :
      SchedReachable t

/-- Notifier state of src/backend/src/notifications.ts: the
notificationSent latch and ghost per-channel dispatch-attempt counters. -/
structure NotifyState where
  notificationSent : Bool
  webPushAttempts : Nat
  ntfyAttempts : Nat
deriving DecidableEq

/-- Notifier state at process start. -/
def initialNotifyState : NotifyState := ⟨false, 0, 0⟩

/-- notifySonnet5Dropped of src/backend/src/notifications.ts: if the latch
is already set the call returns without any dispatch; otherwise the latch
is set synchronously and then both channels are dispatched once. The model
and source arguments only feed the payloads, not the gating. -/
def notifySonnet5Dropped (_model _source : Option String) (s : NotifyState) :
    NotifyState :=
  if s.notificationSent then s
  else ⟨true, s.webPushAttempts + 1, s.ntfyAttempts + 1⟩

/-- Result shape of checkAnthropicModels in the first revision of
src/backend/src/index.ts: found and model only, no source field. -/
structure ApiCheckV1 where
  found : Bool
  model : Option String
deriving DecidableEq

/-- Result shape of scrapeAnthropicPages in the first revision of
src/backend/src/index.ts. -/
structure ScrapeV1 where
  found : Bool
  source : Option String
deriving DecidableEq

/-- StatusData of src/backend/src/index.ts (checkedAt omitted: it is a
wall-clock timestamp outside the embedding). -/
structure StatusDataV1 where
  found : Bool
  model : Option String
  source : Option String
deriving DecidableEq

/-- Per-entry loop of checkAnthropicModels in the first revision of
src/backend/src/index.ts; it uses the inline three-inclusion classifier
and returns no source URL. -/
def findModelV1 : List ModelEntry → Option ApiCheckV1
  | [] => none
  | m :: rest =>
      let modelId := orFalsy m.id ""
      let displayName := orFalsy m.display_name ""
      if isSonnet5Idx modelId.toList then some ⟨true, some modelId⟩
      else if isSonnet5Idx displayName.toList then some ⟨true, some modelId⟩
      else findModelV1 rest

/-- checkAnthropicModels of the first revision of src/backend/src/index.ts:
like the sources.ts adapter but with the inline classifier, replaying the
lastStatus fields on a 304 reply, and crucially returning a record without
any source field. -/
def checkAnthropicModels : Option String → Option String → StatusDataV1 → ApiFetch →
    ApiCheckV1 × Option String
  | none, lastEtag, _, _ => (⟨false, none⟩, lastEtag)
  | some _, lastEtag, _, ApiFetch.netError => (⟨false, none⟩, lastEtag)
  | some _, lastEtag, last, ApiFetch.reply status etag body =>
    if status = 304 then (⟨last.found, last.model⟩, lastEtag)
    else
      let e2 := updEtag lastEtag etag
      if statusOk status then
        match body with
        | none => (⟨false, none⟩, e2)
        | some models =>
          match findModelV1 models with
          | some r => (r, e2)
          | none => (⟨false, none⟩, e2)
      else (⟨false, none⟩, e2)

/-- The status combination of performCheck in the first revision of
src/backend/src/index.ts: found is the disjunction, model comes from the
API result, and source is null unless the scrape matched - so an
API-only match yields found true with source null. -/
def performCheckStatus (api : ApiCheckV1) (scrape : ScrapeV1) : StatusDataV1 :=
  ⟨api.found || scrape.found, api.model,
   if scrape.found then scrape.source else none⟩

/-- Failure of the conditional models fetch as classified by the error
handling of checkAnthropicAPI: the network layer threw, or the reply was
neither the 304 unchanged signal nor an ok status, or its body was
unparsable. -/
def apiFetchFailed : ApiFetch → Bool
  | ApiFetch.netError => true
  | ApiFetch.reply s _ b => decide (s ≠ 304) && (!statusOk s || b.isNone)

/-- Failure of a plain fetch: the network layer threw, or the status was
not ok, or the body was unparsable. -/
def fetchFailed {α : Type} : Fetch α → Bool
  | Fetch.netError => true
  | Fetch.reply s b => !statusOk s || b.isNone

/-- The lowercase letters: the keys of UPPER_TABLE. -/
def LOWERKEYS : List Char := UPPER_TABLE.map Prod.fst

/-- The characters appearing as literals in the source patterns. -/
def PATCHARS : List Char :=
  ['c', 'l', 'a', 'u', 'd', 'e', 's', 'o', 'n', 't', '3', '4', '5', '.']

/-- The characters appearing in the separator classes of the source
patterns. -/
def CLASSCHARS : List Char := ['-', '_', '.']

/-- One text character is a letter-case variant of a canonical lowercase
character: itself or its uppercase counterpart. -/
def caseEqChar (d c : Char) : Bool := d == c || d == upperOf c

/-- A text is a letter-case permutation of a canonical spelling. -/
def caseEq : List Char → List Char → Bool
  | [], [] => true
  | d :: t, c :: u => caseEqChar d c && caseEq t u
  | _, _ => false

/-- The facts about one lowercase letter that drive case-invariance of the
matcher: uppercasing preserves word-character status, never lands in a
separator class, and is absorbed by the case-insensitive literal match. -/
def lowerFacts (c : Char) : Bool :=
  (isWordChar (upperOf c) == isWordChar c) &&
  (chClass CLASSCHARS (upperOf c) == false) &&
  (chClass CLASSCHARS c == false) &&
  (PATCHARS.all fun pc => litMatch pc (upperOf c) == litMatch pc c)

/-- A pattern item drawn from the source alphabet: a literal over PATCHARS
or a class over CLASSCHARS. -/
def patOkItem : RItem → Bool
  | RItem.lit c => chClass PATCHARS c
  | RItem.opt cs => cs.all fun x => chClass CLASSCHARS x

/-- A pattern drawn from the source alphabet. -/
def patOk (p : List RItem) : Bool := p.all patOkItem

/-- Letter-case variance lifted to the optional previous character. -/
def prevEq : Option Char → Option Char → Bool
  | none, none => true
  | some d, some c => caseEqChar d c
  | _, _ => false

/-- The canonical inclusion spellings: the hyphen-separated,
underscore-separated and no-separator variants of each of the four
inclusion patterns of sources.ts. -/
def SPELLINGS : List (List Char) :=
  ["claude-5-sonnet".toList, "claude_5_sonnet".toList, "claude5sonnet".toList,
   "sonnet-5".toList, "sonnet_5".toList, "sonnet5".toList,
   "claude-sonnet-5".toList, "claude_sonnet_5".toList, "claudesonnet5".toList,
   "claude-5".toList, "claude_5".toList, "claude5".toList]

/-- If the head result reports found, the reduction returns it. -/
theorem reduceResults_cons_found (r : CheckResult) (rest : List CheckResult)
    (h : r.found = true) : reduceResults (r :: rest) = r := by
  simp [reduceResults, h]

/-- If the head result does not report found, the reduction skips it. -/
theorem reduceResults_cons_notFound (r : CheckResult) (rest : List CheckResult)
    (h : r.found = false) : reduceResults (r :: rest) = reduceResults rest := by
  simp [reduceResults, h]

/-- Claim C1: if any exclusion pattern matches the text, the sources.ts
classifier returns false, regardless of the inclusion patterns; exclusion
is checked first and has absolute priority. -/
theorem exclusion_has_priority (t : List Char)
    (h : EXCLUDE_PATTERNS.any (fun p => rtest p t) = true) :
    isSonnet5 t = false := by
  simp [isSonnet5, h]

/-- Witness for C1: a text matched by an exclusion pattern and by an
inclusion pattern still classifies as false. -/
theorem exclusion_has_priority_witness :
    EXCLUDE_PATTERNS.any (fun p => rtest p "claude-3.5 sonnet-5".toList) = true ∧
    SONNET_5_PATTERNS.any (fun p => rtest p "claude-3.5 sonnet-5".toList) = true ∧
    isSonnet5 "claude-3.5 sonnet-5".toList = false :=
  ⟨by decide, by decide, exclusion_has_priority _ (by decide)⟩

/-- Claim C2: checkAllSources reduces the four adapter results in the
fixed order Structured-API, Web-Page, Discussion-Search, Release-Feed;
when adapters 1 and 3 both report found the aggregate equals adapter 1's
result, and when none reports found the aggregate is exactly the
canonical not-found result. -/
theorem checkAllSources_priority (key : Option String) (st : ApiState)
    (apiOut : ApiFetch) (fetchPage : String → Fetch (List Char))
    (hnOut : Fetch (List HNHit))
    (gh : String → Fetch (List Release) × Fetch (List Commit)) :
    ((checkAnthropicAPI key st apiOut).1.found = true →
      (checkHackerNews hnOut).found = true →
      checkAllSources key st apiOut fetchPage hnOut gh =
        (checkAnthropicAPI key st apiOut).1) ∧
    ((checkAnthropicAPI key st apiOut).1.found = false →
      (checkAnthropicWebsite fetchPage).found = false →
      (checkHackerNews hnOut).found = false →
      (checkGitHubSDK gh).found = false →
      checkAllSources key st apiOut fetchPage hnOut gh = notFoundResult) := by
  constructor
  · intro h1 _
    unfold checkAllSources
    rw [reduceResults_cons_found _ _ h1]
  · intro h1 h2 h3 h4
    unfold checkAllSources
    rw [reduceResults_cons_notFound _ _ h1, reduceResults_cons_notFound _ _ h2,
      reduceResults_cons_notFound _ _ h3, reduceResults_cons_notFound _ _ h4]
    rfl

/-- Witness for C2: with the Structured-API and Discussion-Search adapters
both reporting found, the aggregate equals the Structured-API result. -/
theorem checkAllSources_priority_witness :
    checkAllSources (some "k") ⟨none, notFoundResult⟩
      (ApiFetch.reply 200 none
        (some [⟨some "claude-sonnet-5-preview", some "Claude Sonnet 5"⟩]))
      (fun _ => Fetch.netError)
      (Fetch.reply 200 (some [⟨some "Sonnet-5 released", some "123"⟩]))
      (fun _ => (Fetch.netError, Fetch.netError)) =
    (checkAnthropicAPI (some "k") ⟨none, notFoundResult⟩
      (ApiFetch.reply 200 none
        (some [⟨some "claude-sonnet-5-preview", some "Claude Sonnet 5"⟩]))).1 :=
  (checkAllSources_priority (some "k") ⟨none, notFoundResult⟩
      (ApiFetch.reply 200 none
        (some [⟨some "claude-sonnet-5-preview", some "Claude Sonnet 5"⟩]))
      (fun _ => Fetch.netError)
      (Fetch.reply 200 (some [⟨some "Sonnet-5 released", some "123"⟩]))
      (fun _ => (Fetch.netError, Fetch.netError))).1 (by decide) (by decide)

/-- Claim C3: the notifier is idempotent across the process lifetime:
two sequential invocations from the initial state produce exactly one
dispatch attempt per channel, and any call that observes the latch set
performs no dispatch at all. -/
theorem notifier_latch_idempotent :
    (∀ model source : Option String,
      (notifySonnet5Dropped model source
        (notifySonnet5Dropped model source initialNotifyState)).webPushAttempts = 1 ∧
      (notifySonnet5Dropped model source
        (notifySonnet5Dropped model source initialNotifyState)).ntfyAttempts = 1) ∧
    (∀ (model source : Option String) (s : NotifyState),
      s.notificationSent = true → notifySonnet5Dropped model source s = s) := by
  constructor
  · intro model source
    exact ⟨rfl, rfl⟩
  · intro _ _ s h
    simp [notifySonnet5Dropped, h]

/-- Witness for C3: two sequential calls from process start leave one
attempt per channel, and a call on a latched state is the identity. -/
theorem notifier_latch_idempotent_witness :
    ((notifySonnet5Dropped (some "m") none
        (notifySonnet5Dropped (some "m") none initialNotifyState)).webPushAttempts = 1) ∧
    notifySonnet5Dropped (some "m") none ⟨true, 1, 1⟩ = ⟨true, 1, 1⟩ :=
  ⟨(notifier_latch_idempotent.1 (some "m") none).1,
   notifier_latch_idempotent.2 (some "m") none ⟨true, 1, 1⟩ rfl⟩

/-- Invariant of the scheduler state machine: at most one check is in
flight, and the guard is set exactly while one is. -/
theorem sched_invariant {s : SchedulerState} (h : SchedReachable s) :
    s.inFlight ≤ 1 ∧ (s.isChecking = true ↔ s.inFlight = 1) := by
  induction h with
  | init => simp [initialScheduler]
  | @step s t hs hst ih =>
    cases hst with
    | trigger =>
      cases hb : s.isChecking with
      | true => simpa [triggerCheck, hb] using ih
      | false =>
        have hle := ih.1
        have h0 : s.inFlight = 0 := by
          have hne : s.inFlight ≠ 1 := by
            intro hh
            have hchk := ih.2.mpr hh
            rw [hb] at hchk
            exact Bool.false_ne_true hchk
          omega
        simp [triggerCheck, hb, h0]
    | complete ok hpos =>
      have h1 : s.inFlight = 1 := le_antisymm ih.1 hpos
      simp [completeCheck, h1]

/-- Claim C4: in every reachable scheduler state at most one aggregate
check is in flight, a trigger arriving while the guard is set is a silent
no-op that starts nothing, and completion of a started check always
returns the scheduler to idle, whether the check succeeded or threw. -/
theorem scheduler_single_flight (s : SchedulerState) (h : SchedReachable s) :
    s.inFlight ≤ 1 ∧
    (s.isChecking = true → triggerCheck s = s) ∧
    (∀ ok : Bool, 0 < s.inFlight →
      (completeCheck ok s).isChecking = false ∧ (completeCheck ok s).inFlight = 0) := by
  have inv := sched_invariant h
  refine ⟨inv.1, ?_, ?_⟩
  · intro hc
    simp [triggerCheck, hc]
  · intro ok hpos
    have h1 : s.inFlight = 1 := le_antisymm inv.1 hpos
    simp [completeCheck, h1]

/-- Witness for C4: after one trigger from process start, the state is
reachable and checking; a second trigger is the identity, and completion
(successful or not) returns to idle. -/
theorem scheduler_single_flight_witness :
    (triggerCheck initialScheduler).inFlight ≤ 1 ∧
    triggerCheck (triggerCheck initialScheduler) = triggerCheck initialScheduler ∧
    (completeCheck true (triggerCheck initialScheduler)).isChecking = false ∧
    (completeCheck false (triggerCheck initialScheduler)).isChecking = false := by
  have h := scheduler_single_flight (triggerCheck initialScheduler)
    (SchedReachable.step SchedReachable.init (SchedStep.trigger initialScheduler))
  exact ⟨h.1, h.2.1 rfl, (h.2.2 true (by decide)).1, (h.2.2 false (by decide)).1⟩


/-- If every page fetch in the list fails, the Web-Page loop reports
not found. -/
theorem websiteGo_all_failed (fetchPage : String → Fetch (List Char))
    (urls : List String) (h : ∀ u, fetchFailed (fetchPage u) = true) :
    websiteGo fetchPage urls = notFoundResult := by
  induction urls with
  | nil => rfl
  | cons url rest ih =>
    have hu := h url
    cases hf : fetchPage url with
    | netError => simp [websiteGo, hf, ih]
    | reply status body =>
      rw [hf] at hu
      simp only [fetchFailed] at hu
      cases hok : statusOk status with
      | false => simp [websiteGo, hf, hok, ih]
      | true =>
        rw [hok] at hu
        simp only [Bool.not_true, Bool.false_or, Option.isNone_iff_eq_none] at hu
        subst hu
        simp [websiteGo, hf, hok, ih]

/-- If the releases fetch of every repository fails, the Release-Feed
loop reports not found. -/
theorem ghGo_all_failed (oracle : String → Fetch (List Release) × Fetch (List Commit))
    (repos : List String) (h : ∀ repo, fetchFailed (oracle repo).1 = true) :
    ghGo oracle repos = notFoundResult := by
  induction repos with
  | nil => rfl
  | cons repo rest ih =>
    have hr := h repo
    cases hf : (oracle repo).1 with
    | netError => simp [ghGo, ghRepoCheck, hf, ih]
    | reply s rels =>
      rw [hf] at hr
      simp only [fetchFailed] at hr
      cases hok : statusOk s with
      | false => simp [ghGo, ghRepoCheck, hf, hok, ih]
      | true =>
        rw [hok] at hr
        simp only [Bool.not_true, Bool.false_or, Option.isNone_iff_eq_none] at hr
        subst hr
        simp [ghGo, ghRepoCheck, hf, hok, ih]

/-- Claim C5: every adapter converts transport and parsing failures into
the not-found result instead of raising: with any failing conditional
fetch, all page fetches failing, a failing search fetch and all releases
fetches failing, each of the four adapters returns exactly the canonical
not-found result (each adapter is a total function of its transport
oracle, so no behaviour of the transport makes it raise). -/
theorem adapters_soft_fail (key : Option String) (st : ApiState)
    (apiOut : ApiFetch) (fetchPage : String → Fetch (List Char))
    (hnOut : Fetch (List HNHit))
    (gh : String → Fetch (List Release) × Fetch (List Commit))
    (h1 : apiFetchFailed apiOut = true)
    (h2 : ∀ u, fetchFailed (fetchPage u) = true)
    (h3 : fetchFailed hnOut = true)
    (h4 : ∀ repo, fetchFailed (gh repo).1 = true) :
    (checkAnthropicAPI key st apiOut).1 = notFoundResult ∧
    checkAnthropicWebsite fetchPage = notFoundResult ∧
    checkHackerNews hnOut = notFoundResult ∧
    checkGitHubSDK gh = notFoundResult := by
  refine ⟨?_, ?_, ?_, ?_⟩
  · cases key with
    | none => rfl
    | some k =>
      cases apiOut with
      | netError => rfl
      | reply status etag body =>
        simp only [apiFetchFailed, Bool.and_eq_true, decide_eq_true_eq] at h1
        obtain ⟨hs, hb⟩ := h1
        simp only [checkAnthropicAPI]
        rw [if_neg hs]
        cases hok : statusOk status with
        | false => simp [hok]
        | true =>
          rw [hok] at hb
          simp only [Bool.not_true, Bool.false_or, Option.isNone_iff_eq_none] at hb
          subst hb
          simp [hok]
  · exact websiteGo_all_failed fetchPage WEBSITE_URLS h2
  · cases hnOut with
    | netError => rfl
    | reply status hits =>
      simp only [fetchFailed] at h3
      cases hok : statusOk status with
      | false => simp [checkHackerNews, hok]
      | true =>
        rw [hok] at h3
        simp only [Bool.not_true, Bool.false_or, Option.isNone_iff_eq_none] at h3
        subst h3
        simp [checkHackerNews, hok]
  · exact ghGo_all_failed gh GH_REPOS h4

/-- Witness for C5: concrete failing transports (a network error for the
conditional fetch, a 500 reply for every page, an unparsable search body,
a 403 for every releases fetch) make all four adapters return not found. -/
theorem adapters_soft_fail_witness :
    (checkAnthropicAPI (some "k") ⟨none, notFoundResult⟩ ApiFetch.netError).1 =
      notFoundResult ∧
    checkAnthropicWebsite (fun _ => Fetch.reply 500 (some [])) = notFoundResult ∧
    checkHackerNews (Fetch.reply 200 none) = notFoundResult ∧
    checkGitHubSDK (fun _ => (Fetch.reply 403 none, Fetch.netError)) = notFoundResult :=
  adapters_soft_fail (some "k") ⟨none, notFoundResult⟩ ApiFetch.netError
    (fun _ => Fetch.reply 500 (some [])) (Fetch.reply 200 none)
    (fun _ => (Fetch.reply 403 none, Fetch.netError))
    rfl (fun _ => rfl) rfl (fun _ => rfl)

/-- Claim C6: on a 304 unchanged reply the Structured-API adapter replays
the cached lastApiResult verbatim, leaving the whole cache untouched; and
on any non-304 reply carrying a fresh (non-empty) entity tag the cached
entity tag is updated to it, on success and failure paths alike. -/
theorem etag_cache_behaviour (k : String) (st : ApiState) :
    (∀ (etag : Option String) (body : Option (List ModelEntry)),
      checkAnthropicAPI (some k) st (ApiFetch.reply 304 etag body) =
        (st.lastApiResult, st)) ∧
    (∀ (s : Nat) (t : String) (body : Option (List ModelEntry)),
      s ≠ 304 → t.length ≠ 0 →
      ((checkAnthropicAPI (some k) st (ApiFetch.reply s (some t) body)).2).lastEtag =
        some t) := by
  constructor
  · intro etag body
    rfl
  · intro s t body hs ht
    have hupd : updEtag st.lastEtag (some t) = some t := by
      simp only [updEtag]
      rw [if_neg ht]
    simp only [checkAnthropicAPI]
    rw [if_neg hs]
    cases hok : statusOk s with
    | false => simp [hok, hupd]
    | true =>
      cases body with
      | none => simp [hok, hupd]
      | some models =>
        cases hm : findModel models with
        | none => simp [hok, hm, hupd]
        | some r => simp [hok, hm, hupd]

/-- Witness for C6: with a populated cache, a 304 reply replays the cached
result and a fresh 200 reply with a new entity tag updates the cache. -/
theorem etag_cache_behaviour_witness :
    checkAnthropicAPI (some "k") ⟨some "old", ⟨true, some "m", some "s"⟩⟩
      (ApiFetch.reply 304 (some "ignored") none) =
      (⟨true, some "m", some "s"⟩, ⟨some "old", ⟨true, some "m", some "s"⟩⟩) ∧
    ((checkAnthropicAPI (some "k") ⟨some "old", ⟨true, some "m", some "s"⟩⟩
      (ApiFetch.reply 200 (some "fresh") none)).2).lastEtag = some "fresh" :=
  ⟨(etag_cache_behaviour "k" ⟨some "old", ⟨true, some "m", some "s"⟩⟩).1
      (some "ignored") none,
   (etag_cache_behaviour "k" ⟨some "old", ⟨true, some "m", some "s"⟩⟩).2
      200 "fresh" none (by decide) (by decide)⟩

/-- Claim C7: the Web-Page adapter classifies a fragment only when it
passes the maximum-length filter: any fragment whose cleaned text has
exactly 250 characters is skipped outright, and any fragment whose
cleaned text has 150 characters and classifies as the target is reported
as found with the page URL as source. -/
theorem fragment_length_filter (url : String) (line : List Char) :
    ((trimChars (replaceEntities line)).length = 250 →
      classifyFragment url line = none) ∧
    ((trimChars (replaceEntities line)).length = 150 →
      isSonnet5 (trimChars (replaceEntities line)) = true →
      classifyFragment url line = some ⟨true, none, some url⟩) := by
  constructor
  · intro h
    simp [classifyFragment, h]
  · intro h hm
    simp [classifyFragment, h, hm]

/-- Witness for C7: a 250-character fragment containing the token
sonnet-5 is skipped, while the 150-character fragment with the same
token is reported. -/
theorem fragment_length_filter_witness :
    (trimChars (replaceEntities ("sonnet-5 ".toList ++ List.replicate 241 'x'))).length
      = 250 ∧
    classifyFragment "u" ("sonnet-5 ".toList ++ List.replicate 241 'x') = none ∧
    (trimChars (replaceEntities ("sonnet-5 ".toList ++ List.replicate 141 'x'))).length
      = 150 ∧
    isSonnet5 (trimChars (replaceEntities ("sonnet-5 ".toList ++ List.replicate 141 'x')))
      = true ∧
    classifyFragment "u" ("sonnet-5 ".toList ++ List.replicate 141 'x') =
      some ⟨true, none, some "u"⟩ :=
  ⟨by decide,
   (fragment_length_filter "u" ("sonnet-5 ".toList ++ List.replicate 241 'x')).1
     (by decide),
   by decide,
   by decide,
   (fragment_length_filter "u" ("sonnet-5 ".toList ++ List.replicate 141 'x')).2
     (by decide) (by decide)⟩

/-- Claim C8: there is an execution in which only the Structured-API
check matches (here: the checkAnthropicModels adapter of the first index
revision finds the entity claude-sonnet-5-preview while the scrape finds
nothing) and the combined status is found true with source null, because
that adapter's result carries no source URL. -/
theorem api_only_match_source_null :
    (checkAnthropicModels (some "k") none ⟨false, none, none⟩
      (ApiFetch.reply 200 none
        (some [⟨some "claude-sonnet-5-preview", some "Claude Sonnet 5"⟩]))).1.found
      = true ∧
    performCheckStatus
      (checkAnthropicModels (some "k") none ⟨false, none, none⟩
        (ApiFetch.reply 200 none
          (some [⟨some "claude-sonnet-5-preview", some "Claude Sonnet 5"⟩]))).1
      ⟨false, none⟩ =
      ⟨true, some "claude-sonnet-5-preview", none⟩ :=
  ⟨by decide, by decide⟩

/-- The letter facts hold for every lowercase letter. -/
theorem allLowerFacts : LOWERKEYS.all lowerFacts = true := by decide

/-- Extract the letter facts for one lowercase letter. -/
theorem lowerFacts_of_mem {c : Char} (h : c ∈ LOWERKEYS) : lowerFacts c = true :=
  List.all_eq_true.mp allLowerFacts c h

/-- Every character either is fixed by upperOf or is a lowercase letter. -/
theorem upperOf_eq_or_mem (c : Char) : upperOf c = c ∨ c ∈ LOWERKEYS := by
  cases hf : UPPER_TABLE.find? (fun q => q.fst == c) with
  | none =>
    left
    simp [upperOf, hf]
  | some q =>
    right
    have hmem : q ∈ UPPER_TABLE := List.mem_of_find?_eq_some hf
    have hpq : (q.fst == c) = true := by simpa using List.find?_some hf
    have hqc : q.fst = c := eq_of_beq hpq
    rw [← hqc]
    exact List.mem_map_of_mem Prod.fst hmem

/-- Uppercasing preserves word-character status. -/
theorem isWordChar_upperOf (c : Char) : isWordChar (upperOf c) = isWordChar c := by
  rcases upperOf_eq_or_mem c with h | h
  · rw [h]
  · have hf := lowerFacts_of_mem h
    simp only [lowerFacts, Bool.and_eq_true, beq_iff_eq] at hf
    exact hf.1.1.1

/-- Membership-driven extraction from a list-level all. -/
theorem all_of_chClass {f : Char → Bool} {l : List Char} (hall : l.all f = true)
    {x : Char} (hx : chClass l x = true) : f x = true := by
  induction l with
  | nil => simp [chClass] at hx
  | cons c rest ih =>
    simp only [List.all_cons, Bool.and_eq_true] at hall
    simp only [chClass, Bool.or_eq_true] at hx
    rcases hx with hx | hx
    · rw [eq_of_beq hx]
      exact hall.1
    · exact ih hall.2 hx

/-- A character outside the full separator alphabet is outside every
separator class drawn from it. -/
theorem chClass_false_of {cs : List Char}
    (hcs : cs.all (fun x => chClass CLASSCHARS x) = true)
    {x : Char} (hx : chClass CLASSCHARS x = false) : chClass cs x = false := by
  induction cs with
  | nil => rfl
  | cons c rest ih =>
    simp only [List.all_cons, Bool.and_eq_true] at hcs
    show (x == c || chClass rest x) = false
    cases hxc : x == c with
    | true =>
      rw [eq_of_beq hxc, hcs.1] at hx
      simp at hx
    | false =>
      simp [ih hcs.2]

/-- The case-insensitive literal match over the pattern alphabet absorbs
uppercasing of the text character. -/
theorem litMatch_upperOf (pc : Char) (hpc : chClass PATCHARS pc = true) (c : Char) :
    litMatch pc (upperOf c) = litMatch pc c := by
  rcases upperOf_eq_or_mem c with h | h
  · rw [h]
  · have hf := lowerFacts_of_mem h
    simp only [lowerFacts, Bool.and_eq_true] at hf
    exact eq_of_beq (all_of_chClass hf.2 hpc)

/-- Word-character status is invariant under letter-case variance. -/
theorem isWordChar_caseEq {d c : Char} (h : caseEqChar d c = true) :
    isWordChar d = isWordChar c := by
  simp only [caseEqChar, Bool.or_eq_true] at h
  rcases h with h | h
  · rw [eq_of_beq h]
  · rw [eq_of_beq h]
    exact isWordChar_upperOf c

/-- Separator-class membership is invariant under letter-case variance. -/
theorem chClass_caseEq {cs : List Char}
    (hcs : cs.all (fun x => chClass CLASSCHARS x) = true)
    {d c : Char} (h : caseEqChar d c = true) : chClass cs d = chClass cs c := by
  simp only [caseEqChar, Bool.or_eq_true] at h
  rcases h with h | h
  · rw [eq_of_beq h]
  · rw [eq_of_beq h]
    rcases upperOf_eq_or_mem c with h2 | h2
    · rw [h2]
    · have hf := lowerFacts_of_mem h2
      simp only [lowerFacts, Bool.and_eq_true, beq_iff_eq] at hf
      rw [chClass_false_of hcs hf.1.1.2, chClass_false_of hcs hf.1.2]

/-- The literal match over the pattern alphabet is invariant under
letter-case variance of the text character. -/
theorem litMatch_caseEq {pc : Char} (hpc : chClass PATCHARS pc = true) {d c : Char}
    (h : caseEqChar d c = true) : litMatch pc d = litMatch pc c := by
  simp only [caseEqChar, Bool.or_eq_true] at h
  rcases h with h | h
  · rw [eq_of_beq h]
  · rw [eq_of_beq h]
    exact litMatch_upperOf pc hpc c

/-- The anchored item matcher is invariant under letter-case variance of
the text, for patterns over the source alphabet. -/
theorem matchRest_caseEq : ∀ (p : List RItem), patOk p = true →
    ∀ t canon, caseEq t canon = true → matchRest p t = matchRest p canon := by
  intro p
  induction p with
  | nil =>
    intro _ t canon h
    cases t with
    | nil =>
      cases canon with
      | nil => rfl
      | cons c u => simp [caseEq] at h
    | cons d t2 =>
      cases canon with
      | nil => simp [caseEq] at h
      | cons c u =>
        simp only [caseEq, Bool.and_eq_true] at h
        show (!isWordChar d) = (!isWordChar c)
        rw [isWordChar_caseEq h.1]
  | cons item ps ih =>
    intro hp t canon h
    simp only [patOk, List.all_cons, Bool.and_eq_true] at hp
    have hps : patOk ps = true := hp.2
    cases item with
    | lit pc =>
      have hpc : chClass PATCHARS pc = true := hp.1
      cases t with
      | nil =>
        cases canon with
        | nil => rfl
        | cons c u => simp [caseEq] at h
      | cons d t2 =>
        cases canon with
        | nil => simp [caseEq] at h
        | cons c u =>
          simp only [caseEq, Bool.and_eq_true] at h
          show (litMatch pc d && matchRest ps t2) = (litMatch pc c && matchRest ps u)
          rw [litMatch_caseEq hpc h.1, ih hps t2 u h.2]
    | opt cs =>
      have hcs : cs.all (fun x => chClass CLASSCHARS x) = true := hp.1
      cases t with
      | nil =>
        cases canon with
        | nil => rfl
        | cons c u => simp [caseEq] at h
      | cons d t2 =>
        cases canon with
        | nil => simp [caseEq] at h
        | cons c u =>
          simp only [caseEq, Bool.and_eq_true] at h
          show (matchRest ps (d :: t2) || (chClass cs d && matchRest ps t2)) =
               (matchRest ps (c :: u) || (chClass cs c && matchRest ps u))
          rw [ih hps (d :: t2) (c :: u) (by simp [caseEq, h.1, h.2]),
              chClass_caseEq hcs h.1, ih hps t2 u h.2]

/-- The leading boundary test is invariant under letter-case variance. -/
theorem boundary_prevEq {p1 p2 : Option Char} (h : prevEq p1 p2 = true) :
    boundaryBefore p1 = boundaryBefore p2 := by
  cases p1 with
  | none =>
    cases p2 with
    | none => rfl
    | some c => simp [prevEq] at h
  | some d =>
    cases p2 with
    | none => simp [prevEq] at h
    | some c =>
      simp only [prevEq] at h
      show (!isWordChar d) = (!isWordChar c)
      rw [isWordChar_caseEq h]

/-- The position scan is invariant under letter-case variance of the text,
for patterns over the source alphabet. -/
theorem testFrom_caseEq (p : List RItem) (hp : patOk p = true) :
    ∀ t canon, caseEq t canon = true →
    ∀ prev1 prev2, prevEq prev1 prev2 = true →
      testFrom p prev1 t = testFrom p prev2 canon := by
  intro t
  induction t with
  | nil =>
    intro canon h prev1 prev2 hprev
    cases canon with
    | cons c u => simp [caseEq] at h
    | nil =>
      show (boundaryBefore prev1 && matchRest p []) =
           (boundaryBefore prev2 && matchRest p [])
      rw [boundary_prevEq hprev]
  | cons d t2 ih =>
    intro canon h prev1 prev2 hprev
    cases canon with
    | nil => simp [caseEq] at h
    | cons c u =>
      simp only [caseEq, Bool.and_eq_true] at h
      show ((boundaryBefore prev1 && matchRest p (d :: t2)) || testFrom p (some d) t2) =
           ((boundaryBefore prev2 && matchRest p (c :: u)) || testFrom p (some c) u)
      rw [boundary_prevEq hprev,
          matchRest_caseEq p hp (d :: t2) (c :: u) (by simp [caseEq, h.1, h.2]),
          ih u h.2 (some d) (some c) (by simpa [prevEq] using h.1)]

/-- The embedded regex test is invariant under letter-case variance of the
text, for patterns over the source alphabet. -/
theorem rtest_caseEq (p : List RItem) (hp : patOk p = true) {t canon : List Char}
    (h : caseEq t canon = true) : rtest p t = rtest p canon :=
  testFrom_caseEq p hp t canon h none none rfl

/-- Any-pattern matching is invariant under letter-case variance. -/
theorem any_rtest_caseEq (pats : List (List RItem)) (hp : pats.all patOk = true)
    {t canon : List Char} (h : caseEq t canon = true) :
    pats.any (fun p => rtest p t) = pats.any (fun p => rtest p canon) := by
  induction pats with
  | nil => rfl
  | cons p rest ih =>
    simp only [List.all_cons, Bool.and_eq_true] at hp
    simp only [List.any_cons]
    rw [rtest_caseEq p hp.1 h, ih hp.2]

/-- The sources.ts classifier is invariant under letter-case variance. -/
theorem isSonnet5_caseEq {t canon : List Char} (h : caseEq t canon = true) :
    isSonnet5 t = isSonnet5 canon := by
  unfold isSonnet5
  rw [any_rtest_caseEq EXCLUDE_PATTERNS (by decide) h,
      any_rtest_caseEq SONNET_5_PATTERNS (by decide) h]

/-- Claim C9: every canonical inclusion spelling of the target name, in
hyphen-, underscore- and no-separator form and under any permutation of
letter case, classifies as a match. -/
theorem inclusion_spellings_match (t canon : List Char)
    (hc : canon ∈ SPELLINGS) (h : caseEq t canon = true) :
    isSonnet5 t = true := by
  rw [isSonnet5_caseEq h]
  simp only [SPELLINGS, List.mem_cons, List.not_mem_nil, or_false] at hc
  rcases hc with rfl | rfl | rfl | rfl | rfl | rfl | rfl | rfl | rfl | rfl | rfl | rfl
  all_goals decide

/-- Witness for C9: a mixed-case underscore variant of the target name is
a case permutation of a canonical spelling and classifies as a match. -/
theorem inclusion_spellings_match_witness :
    "sonnet_5".toList ∈ SPELLINGS ∧
    caseEq "SoNNeT_5".toList "sonnet_5".toList = true ∧
    isSonnet5 "SoNNeT_5".toList = true :=
  ⟨by decide, by decide,
   inclusion_spellings_match "SoNNeT_5".toList "sonnet_5".toList
     (by decide) (by decide)⟩

/-- Counterexample for C10: the two classifier copies disagree on the
input claude-5, which only the sources.ts copy accepts (its fourth
inclusion pattern has no counterpart in the index.ts copy). -/
theorem classifier_copies_differ :
    isSonnet5 "claude-5".toList = true ∧ isSonnet5Idx "claude-5".toList = false :=
  ⟨by decide, by decide⟩

/-- Claim C10 (amended): on every text matched by neither the extra
inclusion pattern claude[-_]?5 nor the extra exclusion pattern
claude[-_]?3[-_.]?5 of sources.ts, the two classifier copies return the
same boolean. -/
theorem classifier_copies_agree_outside_extras (t : List Char)
    (h1 : rtest patClaude5 t = false) (h2 : rtest excClaude35 t = false) :
    isSonnet5 t = isSonnet5Idx t := by
  unfold isSonnet5 isSonnet5Idx
  simp only [EXCLUDE_PATTERNS, EXCLUDE_PATTERNS_IDX, SONNET_5_PATTERNS,
    SONNET_5_PATTERNS_IDX, List.any_cons, List.any_nil, h1, h2, Bool.or_false]

/-- Witness for C10 (amended): on sonnet-5 neither extra pattern fires
and both classifier copies agree. -/
theorem classifier_copies_agree_outside_extras_witness :
    rtest patClaude5 "sonnet-5".toList = false ∧
    rtest excClaude35 "sonnet-5".toList = false ∧
    isSonnet5 "sonnet-5".toList = isSonnet5Idx "sonnet-5".toList :=
  ⟨by decide, by decide,
   classifier_copies_agree_outside_extras "sonnet-5".toList (by decide) (by decide)⟩
